import Mathlib

/-!
Shallow embedding of the lock-logger PWA (service-worker.js plus the main
application script). Data model, mutation operations, import/export, the
derived streak view, the fetch interception policy and the contrast helper are
translated from the source; theorems settle the frozen claims about them.
-/

set_option autoImplicit false

namespace LockLogger

/-- Model of a JavaScript value as it appears after JSON.parse, extended with
undefined for absent object properties. JS numbers are modelled as integers,
which covers every numeric value the claims range over. -/
inductive JsValue where
  | null
  | undefined
  | bool (b : Bool)
  | num (n : Int)
  | str (s : String)
  | arr (elems : List JsValue)
  | obj (fields : List (String × JsValue))
deriving Repr

/-- Property access v.k on a parsed JSON value: absent keys and non-object
bases give undefined. (JS raises a TypeError when the base is null or
undefined; the import theorems below therefore assume that the rebuilt array
elements are objects, where the two semantics agree. JSON.parse keeps one
binding per key, so first-match lookup is adequate.) -/
def getField (v : JsValue) (k : String) : JsValue :=
  match v with
  | .obj fields =>
    match fields.find? (fun f => f.1 == k) with
    | some f => f.2
    | none => .undefined
  | _ => .undefined

/-- JS truthiness of a value (NaN does not arise for the integer fragment). -/
def truthyB : JsValue → Bool
  | .null => false
  | .undefined => false
  | .bool b => b
  | .num n => n != 0
  | .str s => s != ""
  | .arr _ => true
  | .obj _ => true

/-- Array.isArray. -/
def isArrayB : JsValue → Bool
  | .arr _ => true
  | _ => false

/-- Whether the value is a plain object. -/
def isObjB : JsValue → Bool
  | .obj _ => true
  | _ => false

/-- The short-circuit a || b used by the per-field defaults of the importer. -/
def jsOr (a b : JsValue) : JsValue :=
  if truthyB a then a else b

mutual

/-- JS String(v) conversion. -/
def jsToString : JsValue → String
  | .null => "null"
  | .undefined => "undefined"
  | .bool b => if b then "true" else "false"
  | .num n => toString n
  | .str s => s
  | .arr elems => String.intercalate "," (jsToStringList elems)
  | .obj _ => "[object Object]"

/-- Stringification of array elements for Array.prototype.toString: null and
undefined elements print as the empty string. -/
def jsToStringList : List JsValue → List String
  | [] => []
  | .null :: rest => "" :: jsToStringList rest
  | .undefined :: rest => "" :: jsToStringList rest
  | v :: rest => jsToString v :: jsToStringList rest

end

/-- Gregorian leap-year test used to validate the day of the month. -/
def isLeapYear (y : Nat) : Bool :=
  y % 4 == 0 && (y % 100 != 0 || y % 400 == 0)

/-- Number of days of month m in year y (months are 1-based). -/
def daysInMonth (y m : Nat) : Nat :=
  if m == 2 then (if isLeapYear y then 29 else 28)
  else if m == 4 || m == 6 || m == 9 || m == 11 then 30
  else 31

/-- Numeric value of a decimal digit character. -/
def digitVal (c : Char) : Nat := c.toNat - 48

/-- Recognizer for exactly the strings Date.prototype.toISOString produces for
instants in years 0000 to 9999. Every such string is parsed back by the Date
constructor to the same instant, so on them the composite
toISOString-after-parse is the identity. -/
def isCanonicalTs (s : String) : Bool :=
  match s.data with
  | [y1, y2, y3, y4, c1, m1, m2, c2, d1, d2, ct, h1, h2, c3, i1, i2, c4, e1, e2, cd, f1, f2, f3, cz] =>
    c1 == '-' && c2 == '-' && ct == 'T' && c3 == ':' && c4 == ':' && cd == '.' && cz == 'Z' &&
    [y1, y2, y3, y4, m1, m2, d1, d2, h1, h2, i1, i2, e1, e2, f1, f2, f3].all Char.isDigit &&
    (let y := ((digitVal y1 * 10 + digitVal y2) * 10 + digitVal y3) * 10 + digitVal y4
     let mo := digitVal m1 * 10 + digitVal m2
     let da := digitVal d1 * 10 + digitVal d2
     let ho := digitVal h1 * 10 + digitVal h2
     let mi := digitVal i1 * 10 + digitVal i2
     let se := digitVal e1 * 10 + digitVal e2
     decide (1 ≤ mo ∧ mo ≤ 12 ∧ 1 ≤ da ∧ da ≤ daysInMonth y mo ∧ ho ≤ 23 ∧ mi ≤ 59 ∧ se ≤ 59))
  | _ => false

/-- Composite of the Date constructor and toISOString on a truthy value, as
the importer runs it on a present tsISO field: canonical timestamp strings are
fixed points, while an unparseable value makes toISOString raise a RangeError,
modelled as none. Values the Date constructor would parse but normalize to a
different string (non-canonical date strings, numeric epochs) lie outside the
fragment the claims range over; the model conservatively sends them to none
and no theorem below touches them. -/
def jsDateToIsoStr : JsValue → Option String
  | .str s => if isCanonicalTs s then some s else none
  | _ => none

structure Lockable where
  id : String
  name : String
  icon : String
  color : String
deriving Repr, DecidableEq

structure Entry where
  id : String
  lockableId : String
  tsISO : String
  note : Option String
deriving Repr, DecidableEq

structure Prefs where
  theme : String
  confirmNote : Bool
  quickNoteSuggestions : List String
deriving Repr, DecidableEq

structure Doc where
  lockables : List Lockable
  entries : List Entry
  prefs : Prefs
deriving Repr, DecidableEq

/-- The quick-note suggestion list the importer falls back to. -/
def defaultSuggestions : List String := ["Salí apurado", "Doble chequeo", "Con alarma"]

/-- The hard-coded default state (3 preset lockables, no entries). -/
def defaultState : Doc :=
  { lockables := [
      { id := "casa", name := "Casa", icon := "🏠", color := "#0ea5e9" },
      { id := "auto", name := "Auto", icon := "🚗", color := "#0ea5e9" },
      { id := "oficina", name := "Oficina", icon := "🏢", color := "#0ea5e9" }],
    entries := [],
    prefs := { theme := "system", confirmNote := false,
               quickNoteSuggestions := defaultSuggestions } }

/-- The stored note: the prompt fires only when confirmNote is set, and a
cancelled (none) or empty prompt stores no note (note || undefined). -/
def noteOf (confirm : Bool) (promptNote : Option String) : Option String :=
  if confirm then
    match promptNote with
    | some s => if s == "" then none else some s
    | none => none
  else none

/-- recordEntry: build an entry from a fresh id, the current timestamp and the
pressed lockable, prepend it and cap the list to the first 200. -/
def recordEntry (uid now : String) (lockable : Lockable) (promptNote : Option String)
    (st : Doc) : Doc :=
  { st with entries :=
      ({ id := uid, lockableId := lockable.id, tsISO := now,
         note := noteOf st.prefs.confirmNote promptNote } :: st.entries).take 200 }

/-- addLockable: the name and icon prompts abort the operation when cancelled
or empty (cancellation and the empty string are both falsy, so they are
collapsed to the empty string here); the color prompt result is stored as
given and does not gate the append. -/
def addLockable (uid name icon color : String) (st : Doc) : Doc :=
  if name == "" then st
  else if icon == "" then st
  else { st with lockables := st.lockables ++ [{ id := uid, name := name, icon := icon, color := color }] }

/-- undoLast: entries.slice(1), a no-op on an empty list. -/
def undoLast (st : Doc) : Doc :=
  { st with entries := st.entries.drop 1 }

/-- updateTheme: replace prefs.theme, spreading the rest of the document. -/
def updateTheme (theme : String) (st : Doc) : Doc :=
  { st with prefs := { st.prefs with theme := theme } }

/-- Elements of an array value (only ever applied under an isArrayB guard). -/
def arrElems : JsValue → List JsValue
  | .arr xs => xs
  | _ => []

/-- First element of an array of raw values, undefined when empty, as in the
optional chain data.lockables[0]?.id. -/
def headOr : List JsValue → JsValue
  | x :: _ => x
  | [] => .undefined

/-- Rebuild one imported lockable with per-field defaults,
String(field || default). The uid argument is the id the generator would
supply if drawn for this element. -/
def rebuildLockable (uid : String) (l : JsValue) : Lockable :=
  { id := jsToString (jsOr (getField l "id") (.str uid)),
    name := jsToString (jsOr (getField l "name") (.str "Sin nombre")),
    icon := jsToString (jsOr (getField l "icon") (.str "🔒")),
    color := jsToString (jsOr (getField l "color") (.str "#0ea5e9")) }

/-- Rebuild the imported lockables left to right. The supply uid models the
Math.random based id generator; no uniqueness is assumed of it, matching the
source. -/
def rebuildLockables (uid : Nat → String) (k : Nat) : List JsValue → List Lockable
  | [] => []
  | l :: ls => rebuildLockable (uid k) l :: rebuildLockables uid (k + 1) ls

/-- The timestamp the importer stores: new Date(v || new Date()).toISOString(),
so a falsy tsISO becomes the current time and a truthy unparseable one raises
the RangeError of toISOString. -/
def importTs (now : String) (v : JsValue) : Except String String :=
  if truthyB v then
    match jsDateToIsoStr v with
    | some s => Except.ok s
    | none => Except.error "Invalid time value"
  else Except.ok now

/-- The entry the importer builds once the stored timestamp is known: each
remaining field gets its String coercion with the per-field default, and a
falsy note is left absent. -/
def rebuiltEntry (uid : String) (firstLockId e : JsValue) (ts : String) : Entry :=
  { id := jsToString (jsOr (getField e "id") (.str uid)),
    lockableId := jsToString (jsOr (getField e "lockableId") (jsOr firstLockId (.str "casa"))),
    tsISO := ts,
    note := if truthyB (getField e "note") then some (jsToString (getField e "note")) else none }

/-- Rebuild one imported entry. A truthy but unparseable tsISO makes
toISOString throw, which fails the whole import with the RangeError message. -/
def rebuildEntry (uid now : String) (firstLockId : JsValue) (e : JsValue) :
    Except String Entry :=
  match importTs now (getField e "tsISO") with
  | Except.error msg => Except.error msg
  | Except.ok ts => Except.ok (rebuiltEntry uid firstLockId e ts)

/-- Rebuild the imported entries left to right; the first failure aborts, as
the exception from Array.prototype.map does. -/
def rebuildEntries (uid : Nat → String) (now : String) (firstLockId : JsValue) (k : Nat) :
    List JsValue → Except String (List Entry)
  | [] => Except.ok []
  | e :: es =>
    match rebuildEntry (uid k) now firstLockId e with
    | Except.error msg => Except.error msg
    | Except.ok ent =>
      match rebuildEntries uid now firstLockId (k + 1) es with
      | Except.error msg => Except.error msg
      | Except.ok rest => Except.ok (ent :: rest)

/-- Rebuild the imported preferences: a theme outside system, light, dark falls
back to system, confirmNote is coerced with a double negation, and a
non-array suggestion list falls back to the built-in default. -/
def rebuildPrefs (data : JsValue) : Prefs :=
  let p := getField data "prefs"
  { theme :=
      match getField p "theme" with
      | .str t => if t == "system" || t == "light" || t == "dark" then t else "system"
      | _ => "system",
    confirmNote := truthyB (getField p "confirmNote"),
    quickNoteSuggestions :=
      match getField p "quickNoteSuggestions" with
      | .arr xs => xs.map jsToString
      | _ => defaultSuggestions }

/-- The importer after JSON.parse succeeded: validate that lockables and
entries are arrays, then rebuild every lockable, every entry and the
preferences with per-field defaults. Any raised error leaves the document
alone (the error value carries the message shown to the user). -/
def importData (uid : Nat → String) (now : String) (data : JsValue) : Except String Doc :=
  if isArrayB (getField data "lockables") && isArrayB (getField data "entries") then
    match rebuildEntries uid now (getField (headOr (arrElems (getField data "lockables"))) "id") 0
        (arrElems (getField data "entries")) with
    | Except.error msg => Except.error msg
    | Except.ok ents =>
      Except.ok
        { lockables := rebuildLockables uid 0 (arrElems (getField data "lockables")),
          entries := ents,
          prefs := rebuildPrefs data }
  else Except.error "Formato inválido"

/-- The state transition the import handler performs: replace the document on
success, keep it untouched on failure (the catch only shows an alert). -/
def importStep (uid : Nat → String) (now : String) (data : JsValue) (st : Doc) : Doc :=
  match importData uid now data with
  | Except.ok d => d
  | Except.error _ => st

def lockableToJson (l : Lockable) : JsValue :=
  .obj [("id", .str l.id), ("name", .str l.name), ("icon", .str l.icon), ("color", .str l.color)]

/-- JSON.stringify drops object fields whose value is undefined, so an absent
note produces no note key. -/
def entryToJson (e : Entry) : JsValue :=
  .obj ([("id", .str e.id), ("lockableId", .str e.lockableId), ("tsISO", .str e.tsISO)] ++
    (match e.note with
     | some n => [("note", .str n)]
     | none => []))

def prefsToJson (p : Prefs) : JsValue :=
  .obj [("theme", .str p.theme), ("confirmNote", .bool p.confirmNote),
        ("quickNoteSuggestions", .arr (p.quickNoteSuggestions.map JsValue.str))]

/-- The JSON value exportData serializes (the indentation of the produced text
does not affect the parsed value). -/
def exportJson (d : Doc) : JsValue :=
  .obj [("lockables", .arr (d.lockables.map lockableToJson)),
        ("entries", .arr (d.entries.map entryToJson)),
        ("prefs", prefsToJson d.prefs)]

/-- Midnight day keys of the entries. The function dayOf abstracts the map
sending a timestamp string through the Date constructor, setHours(0,0,0,0) and
getTime; in the abstraction consecutive local calendar days differ by one. -/
def dayTimes (dayOf : String → Int) (entries : List Entry) : List Int :=
  entries.map fun e => dayOf e.tsISO

/-- The backward walk of the streak computation, with explicit fuel. -/
def streakLoop (days : List Int) (date : Int) : Nat → Nat
  | 0 => 0
  | fuel + 1 => if date ∈ days then streakLoop days (date - 1) fuel + 1 else 0

/-- The streak derived view. The while loop of the source needs no fuel; here
the fuel entries.length + 1 never cuts the walk short because the probed keys
are pairwise distinct, so at most entries.length of them can be members (see
streakLoop_fuel_stable below). -/
def streak (dayOf : String → Int) (today : Int) (st : Doc) : Nat :=
  if st.entries.length == 0 then 0
  else streakLoop (dayTimes dayOf st.entries) today (st.entries.length + 1)

structure Request where
  method : String
  url : String
deriving Repr, DecidableEq

/-- Outcome of the fetch listener: returning without respondWith passes the
request through untouched, otherwise the given (possibly absent) response is
supplied. -/
inductive FetchOutcome (α : Type) where
  | passthrough
  | respond (r : Option α)
deriving Repr, DecidableEq

/-- The fetch handler of the service worker: non-GET requests return before
respondWith; a GET request is answered from the cache, then by a live fetch,
and when that fails by the cached root index document. The cache is keyed by
request URL. -/
def handleFetch {α : Type} (cache : String → Option α) (net : Request → Option α)
    (req : Request) : FetchOutcome α :=
  if req.method != "GET" then .passthrough
  else .respond
    (match cache req.url with
     | some c => some c
     | none =>
       match net req with
       | some r => some r
       | none => cache "./index.html")

/-- Value of a hex digit character, accepting both letter cases as parseInt
with radix 16 does. -/
def hexVal? (c : Char) : Option Nat :=
  if '0' ≤ c && c ≤ '9' then some (c.toNat - 48)
  else if 'a' ≤ c && c ≤ 'f' then some (c.toNat - 87)
  else if 'A' ≤ c && c ≤ 'F' then some (c.toNat - 55)
  else none

/-- Accumulate the longest run of hex digits at the front. -/
def hexRun (acc : Nat) : List Char → Nat
  | [] => acc
  | c :: cs =>
    match hexVal? c with
    | some v => hexRun (acc * 16 + v) cs
    | none => acc

/-- parseInt(s, 16) on the two-character slices the contrast helper feeds it:
parse the longest hex-digit run at the front, NaN (none) when the input is
empty or starts with a non-digit. -/
def parseIntHex : List Char → Option Nat
  | [] => none
  | c :: cs =>
    match hexVal? c with
    | some v => some (hexRun v cs)
    | none => none

/-- hex.replace of a single character pattern by the empty string removes the
first occurrence only. -/
def removeFirstChar (c : Char) : List Char → List Char
  | [] => []
  | x :: xs => if x == c then xs else x :: removeFirstChar c xs

/-- readableTextColor: dark text when the YIQ luminance is at least 140, white
otherwise. On exact integer inputs the float comparison
(r*299 + g*587 + b*114) / 1000 >= 140 of the source agrees with the integer
comparison r*299 + g*587 + b*114 >= 140 * 1000 used here: the weighted sum is
at most 255000, its quotient by 1000 is computed to within far less than the
distance from any other integer thousandth to 140, and 140 itself is hit
exactly. A NaN component makes the comparison false, giving white, as does the
catch clause. -/
def readableTextColor (hex : String) : String :=
  let c := removeFirstChar '#' hex.data
  match parseIntHex (c.take 2), parseIntHex ((c.drop 2).take 2), parseIntHex ((c.drop 4).take 2) with
  | some r, some g, some b =>
    if 140 * 1000 ≤ r * 299 + g * 587 + b * 114 then "#18181b" else "#ffffff"
  | _, _, _ => "#ffffff"

/-- Lowercase hex digit character of a value below 16. -/
def hexChar (d : Nat) : Char :=
  if d < 10 then Char.ofNat (48 + d) else Char.ofNat (87 + d)

/-- Two-digit lowercase hex rendering of a byte, used to state the contrast
claim over all byte triples. -/
def toHex2 (n : Nat) : String := String.mk [hexChar (n / 16), hexChar (n % 16)]

/-- Wellformedness of a lockable for the round-trip claim: all four fields are
non-empty strings. -/
def wfLockable (l : Lockable) : Bool :=
  l.id != "" && l.name != "" && l.icon != "" && l.color != ""

/-- Wellformedness of an entry for the round-trip claim: non-empty id and
lockableId, a canonical timestamp, and a note that is absent or non-empty. -/
def wfEntry (e : Entry) : Bool :=
  e.id != "" && e.lockableId != "" && isCanonicalTs e.tsISO &&
    (match e.note with
     | none => true
     | some n => n != "")

/-- Wellformedness of the preferences: a valid theme (the suggestion list is a
string sequence by construction). -/
def wfPrefs (p : Prefs) : Bool :=
  p.theme == "system" || p.theme == "light" || p.theme == "dark"

def wfDoc (d : Doc) : Bool :=
  d.lockables.all wfLockable && d.entries.all wfEntry && wfPrefs d.prefs

/-- One record interaction: the generated id, the current timestamp, the
pressed lockable and the note prompt outcome. -/
structure RecordOp where
  uid : String
  now : String
  lockable : Lockable
  promptNote : Option String
deriving Repr, DecidableEq

def applyRecord (st : Doc) (op : RecordOp) : Doc :=
  recordEntry op.uid op.now op.lockable op.promptNote st

/-- A sequence of record operations applied oldest first. -/
def recordMany (ops : List RecordOp) (st : Doc) : Doc :=
  ops.foldl applyRecord st

/-- The entry a record operation builds, given the confirmNote preference in
force (recordEntry never changes that preference). -/
def builtEntry (confirm : Bool) (op : RecordOp) : Entry :=
  { id := op.uid, lockableId := op.lockable.id, tsISO := op.now,
    note := noteOf confirm op.promptNote }

/-- Truthiness test used to state the timestamp-defaulting claim: the tsISO
field is either falsy (so the importer substitutes the current time) or a
canonical timestamp string (kept verbatim). -/
def tsOkB (v : JsValue) : Bool :=
  !truthyB v ||
    (match v with
     | .str s => isCanonicalTs s
     | _ => false)

end LockLogger

namespace LockLogger

/-- Constant id supply used by the concrete import scenarios (the source
generator is random and guarantees no uniqueness). -/
def uid0 : Nat → String := fun _ => "u"

/-- A shape-valid import payload carrying 201 empty-object entries, every
per-field default applying. -/
def bigImport : JsValue :=
  .obj [("lockables", .arr []), ("entries", .arr (List.replicate 201 (.obj [])))]

/-- A shape-valid import payload whose single entry carries a truthy but
unparseable timestamp. -/
def badTsImport : JsValue :=
  .obj [("lockables", .arr []), ("entries", .arr [.obj [("tsISO", .str "garbage")]])]

/-- An import payload with an entries array but no lockables key. -/
def noLockablesImport : JsValue := .obj [("entries", .arr [])]

/-- A shape-valid import payload with empty lockables and entries arrays. -/
def emptyImport : JsValue := .obj [("lockables", .arr []), ("entries", .arr [])]

/-- The document emptyImport imports to: everything defaulted. -/
def emptyImportDoc : Doc :=
  { lockables := [], entries := [],
    prefs := { theme := "system", confirmNote := false,
               quickNoteSuggestions := defaultSuggestions } }

/-- A shape-valid import with one entry missing its timestamp and one carrying
a canonical timestamp; all array elements are objects. -/
def mixedTsImport : JsValue :=
  .obj [("lockables", .arr [.obj [("id", .str "x")]]),
        ("entries", .arr [.obj [], .obj [("tsISO", .str "2024-05-05T10:00:00.000Z")]])]

def dummyEntry : Entry :=
  { id := "e", lockableId := "casa", tsISO := "2024-01-01T00:00:00.000Z", note := none }

/-- A document sitting exactly at the 200-entry cap. -/
def fullDoc : Doc := { defaultState with entries := List.replicate 200 dummyEntry }

def casaLockable : Lockable := { id := "casa", name := "Casa", icon := "🏠", color := "#0ea5e9" }

/-- One concrete record interaction. -/
def opW : RecordOp :=
  { uid := "u1", now := "2024-05-05T10:00:00.000Z", lockable := casaLockable, promptNote := none }

/-- A wellformed document with one noted entry, for the round-trip scenario. -/
def wfWitnessDoc : Doc :=
  { defaultState with entries :=
      [{ id := "e1", lockableId := "casa", tsISO := "2024-05-05T10:00:00.000Z",
         note := some "Doble chequeo" }] }

/-- Two entries whose day keys are told apart by the scenario day maps. -/
def entryA : Entry := { id := "1", lockableId := "casa", tsISO := "a", note := none }

def entryB : Entry := { id := "2", lockableId := "casa", tsISO := "b", note := none }

/-- A document with the two scenario entries. -/
def twoEntryDoc : Doc := { defaultState with entries := [entryA, entryB] }

/-- Day abstraction placing entryA on day 10 and everything else on day 9. -/
def dayOfW : String → Int := fun s => if s = "a" then 10 else 9

/-- Day abstraction placing entryA on day 9 and everything else on day 8. -/
def dayOfW2 : String → Int := fun s => if s = "a" then 9 else 8

/-- A concrete cache holding one page and the root index document. -/
def cacheW : String → Option Nat :=
  fun u => if u = "/hit" then some 1 else if u = "./index.html" then some 7 else none

/-- A concrete network reachable only for one URL. -/
def netW : Request → Option Nat := fun r => if r.url = "/net" then some 2 else none

/-! ### Theorems -/

/-- C10: updateTheme changes only the theme preference: lockables, entries and
the other preference fields keep their previous values, and the theme becomes
the given value. -/
theorem updateTheme_frame (theme : String) (st : Doc) :
    (updateTheme theme st).lockables = st.lockables ∧
    (updateTheme theme st).entries = st.entries ∧
    (updateTheme theme st).prefs.confirmNote = st.prefs.confirmNote ∧
    (updateTheme theme st).prefs.quickNoteSuggestions = st.prefs.quickNoteSuggestions ∧
    (updateTheme theme st).prefs.theme = theme :=
  ⟨rfl, rfl, rfl, rfl, rfl⟩

/-- C8: the fetch handler passes every non-GET request through untouched; a
GET request is answered by the cached response when present, by a live fetch
otherwise, and when the live fetch fails by the cached root index document. -/
theorem handleFetch_policy {α : Type} (cache : String → Option α) (net : Request → Option α)
    (req : Request) :
    (req.method ≠ "GET" → handleFetch cache net req = FetchOutcome.passthrough) ∧
    (req.method = "GET" → ∀ c : α, cache req.url = some c →
      handleFetch cache net req = FetchOutcome.respond (some c)) ∧
    (req.method = "GET" → cache req.url = none → ∀ r : α, net req = some r →
      handleFetch cache net req = FetchOutcome.respond (some r)) ∧
    (req.method = "GET" → cache req.url = none → net req = none →
      handleFetch cache net req = FetchOutcome.respond (cache "./index.html")) := by
  refine ⟨?_, ?_, ?_, ?_⟩
  · intro h
    simp [handleFetch, h]
  · intro h c hc
    simp [handleFetch, h, hc]
  · intro h hc r hr
    simp [handleFetch, h, hc, hr]
  · intro h hc hr
    simp [handleFetch, h, hc, hr]

theorem handleFetch_policy_witness :
    handleFetch cacheW netW { method := "POST", url := "/hit" } = FetchOutcome.passthrough ∧
    handleFetch cacheW netW { method := "GET", url := "/hit" } = FetchOutcome.respond (some 1) ∧
    handleFetch cacheW netW { method := "GET", url := "/net" } = FetchOutcome.respond (some 2) ∧
    handleFetch cacheW netW { method := "GET", url := "/miss" } =
      FetchOutcome.respond (cacheW "./index.html") :=
  ⟨(handleFetch_policy cacheW netW _).1 (by decide),
   (handleFetch_policy cacheW netW _).2.1 rfl 1 (by decide),
   (handleFetch_policy cacheW netW _).2.2.1 rfl (by decide) 2 (by decide),
   (handleFetch_policy cacheW netW _).2.2.2 rfl (by decide) (by decide)⟩

theorem drop_one_take_cons {α : Type} (a : α) (l : List α) (h : l.length < 200) :
    ((a :: l).take 200).drop 1 = l := by
  rw [List.take_of_length_le (by simp only [List.length_cons]; omega), List.drop_one,
    List.tail_cons]

/-- C4 (amended): when the document holds fewer than 200 entries, undoLast
right after recordEntry restores the exact previous document; at the cap the
record drops the oldest entry and undo cannot restore it (see the
counterexample). -/
theorem undo_after_record (uid now : String) (lk : Lockable) (pn : Option String)
    (st : Doc) (h : st.entries.length < 200) :
    undoLast (recordEntry uid now lk pn st) = st := by
  cases st with
  | mk locks ents prefs =>
    have h3 : ents.length < 200 := h
    simp only [recordEntry, undoLast, Doc.mk.injEq]
    refine ⟨trivial, ?_, trivial⟩
    exact drop_one_take_cons _ ents h3

theorem undo_after_record_witness :
    undoLast (recordEntry "u" "2024-01-02T00:00:00.000Z" casaLockable none defaultState) =
      defaultState :=
  undo_after_record "u" "2024-01-02T00:00:00.000Z" casaLockable none defaultState (by decide)

set_option maxRecDepth 8000

/-- C4 fails as stated at the cap: with 200 entries stored, record-then-undo
does not return entries to its pre-record value (the oldest entry is gone). -/
theorem undo_after_record_cex :
    (undoLast (recordEntry "u" "2024-01-02T00:00:00.000Z" casaLockable none fullDoc)).entries ≠
      fullDoc.entries := by decide

/-- C3: when the parsed value does not carry both lockables and entries as
arrays, the importer fails with the invalid-format message and the document
transition keeps the current document with every field intact. -/
theorem import_rejects_bad_shape (uid : Nat → String) (now : String) (data : JsValue)
    (h : ¬ (isArrayB (getField data "lockables") = true ∧
            isArrayB (getField data "entries") = true)) :
    importData uid now data = Except.error "Formato inválido" ∧
    ∀ st : Doc, importStep uid now data st = st := by
  have hb : (isArrayB (getField data "lockables") && isArrayB (getField data "entries")) = false := by
    cases ha : isArrayB (getField data "lockables") <;>
      cases he : isArrayB (getField data "entries") <;> simp_all
  refine ⟨?_, ?_⟩
  · simp [importData, hb]
  · intro st
    simp [importStep, importData, hb]

theorem import_rejects_bad_shape_witness :
    importData uid0 "2024-01-01T00:00:00.000Z" noLockablesImport =
      Except.error "Formato inválido" ∧
    importStep uid0 "2024-01-01T00:00:00.000Z" noLockablesImport defaultState = defaultState :=
  ⟨(import_rejects_bad_shape uid0 "2024-01-01T00:00:00.000Z" noLockablesImport (by decide)).1,
   (import_rejects_bad_shape uid0 "2024-01-01T00:00:00.000Z" noLockablesImport
      (by decide)).2 defaultState⟩

/-- A successful entry rebuild keeps the element count of the imported array. -/
theorem rebuildEntries_length (uid : Nat → String) (now : String) (fb : JsValue)
    (es : List JsValue) (k : Nat) (l : List Entry)
    (h : rebuildEntries uid now fb k es = Except.ok l) : l.length = es.length := by
  induction es generalizing k l with
  | nil =>
    simp only [rebuildEntries] at h
    cases h
    rfl
  | cons e es ih =>
    simp only [rebuildEntries] at h
    cases hre : rebuildEntry (uid k) now fb e with
    | error msg => rw [hre] at h; cases h
    | ok ent =>
      rw [hre] at h
      cases hrest : rebuildEntries uid now fb (k + 1) es with
      | error msg => rw [hrest] at h; cases h
      | ok rest =>
        rw [hrest] at h
        cases h
        simp only [List.length_cons]
        rw [ih (k + 1) rest hrest]

/-- C1 (amended): recordEntry always leaves at most 200 entries, and
addLockable, undoLast and updateTheme preserve the 200-entry bound, but
no truncation happens on import: a successful import holds exactly as many
entries as the imported entries array, which can exceed 200 (see the
counterexample). -/
theorem entries_cap :
    (∀ (uid now : String) (lk : Lockable) (pn : Option String) (st : Doc),
      (recordEntry uid now lk pn st).entries.length ≤ 200) ∧
    (∀ (uid nm ic co : String) (st : Doc), st.entries.length ≤ 200 →
      (addLockable uid nm ic co st).entries.length ≤ 200) ∧
    (∀ st : Doc, st.entries.length ≤ 200 → (undoLast st).entries.length ≤ 200) ∧
    (∀ (th : String) (st : Doc), st.entries.length ≤ 200 →
      (updateTheme th st).entries.length ≤ 200) ∧
    (∀ (uid : Nat → String) (now : String) (data : JsValue) (d : Doc),
      importData uid now data = Except.ok d →
      d.entries.length = (arrElems (getField data "entries")).length) := by
  refine ⟨?_, ?_, ?_, ?_, ?_⟩
  · intro uid now lk pn st
    simp only [recordEntry, List.length_take]
    omega
  · intro uid nm ic co st h
    unfold addLockable
    split
    · exact h
    · split
      · exact h
      · exact h
  · intro st h
    simp only [undoLast, List.length_drop]
    omega
  · intro th st h
    exact h
  · intro uid now data d h
    unfold importData at h
    split at h
    · rename_i hguard
      cases hre : rebuildEntries uid now
          (getField (headOr (arrElems (getField data "lockables"))) "id") 0
          (arrElems (getField data "entries")) with
      | error msg => rw [hre] at h; cases h
      | ok ents =>
        rw [hre] at h
        cases h
        exact rebuildEntries_length uid now _ _ 0 ents hre
    · cases h

theorem entries_cap_witness :
    (recordEntry "u" "2024-01-01T00:00:00.000Z" casaLockable none defaultState).entries.length ≤ 200 ∧
    (addLockable "u" "Bici" "B" "#ffffff" defaultState).entries.length ≤ 200 ∧
    (undoLast defaultState).entries.length ≤ 200 ∧
    (updateTheme "dark" defaultState).entries.length ≤ 200 ∧
    emptyImportDoc.entries.length = (arrElems (getField emptyImport "entries")).length :=
  ⟨entries_cap.1 "u" "2024-01-01T00:00:00.000Z" casaLockable none defaultState,
   entries_cap.2.1 "u" "Bici" "B" "#ffffff" defaultState (by decide),
   entries_cap.2.2.1 defaultState (by decide),
   entries_cap.2.2.2.1 "dark" defaultState (by decide),
   entries_cap.2.2.2.2 uid0 "2024-01-01T00:00:00.000Z" emptyImport emptyImportDoc (by rfl)⟩

/-- C1 fails as stated: a successful import of a file with 201 entries leaves
a document whose entries exceed the 200 cap. -/
theorem entries_cap_cex :
    ¬ ((importStep uid0 "2024-01-01T00:00:00.000Z" bigImport defaultState).entries.length ≤ 200) := by
  decide

/-- Truncating after an append absorbs an inner truncation to the same bound. -/
theorem take_append_take {α : Type} (n : Nat) (A B : List α) :
    (A ++ B.take n).take n = (A ++ B).take n := by
  rw [List.take_append_eq_append_take, List.take_append_eq_append_take, List.take_take,
    Nat.min_eq_left (Nat.sub_le n A.length)]

/-- Entries after a batch of record operations: the reversed built entries in
front of the old ones, truncated to 200. -/
theorem recordMany_entries (ops : List RecordOp) (st : Doc) (h : st.entries.length ≤ 200) :
    (recordMany ops st).entries =
      ((ops.map (builtEntry st.prefs.confirmNote)).reverse ++ st.entries).take 200 := by
  induction ops generalizing st with
  | nil =>
    simp only [recordMany, List.foldl_nil, List.map_nil, List.reverse_nil, List.nil_append]
    exact (List.take_of_length_le h).symm
  | cons op ops ih =>
    have hst : (applyRecord st op).entries.length ≤ 200 := by
      simp only [applyRecord, recordEntry, List.length_take]
      omega
    have hpf : (applyRecord st op).prefs = st.prefs := rfl
    have hent : (applyRecord st op).entries =
        (builtEntry st.prefs.confirmNote op :: st.entries).take 200 := rfl
    have step : recordMany (op :: ops) st = recordMany ops (applyRecord st op) := rfl
    rw [step, ih (applyRecord st op) hst, hpf, hent, take_append_take, List.map_cons,
      List.reverse_cons, List.append_assoc, List.singleton_append]

/-- C2: starting from a document with no entries, a batch of N record
operations leaves min N 200 entries and the list is strictly newest-first:
each operation prepends its entry and the result is the reversal of the built
entries truncated to the first 200. -/
theorem recordMany_newest_first (ops : List RecordOp) (st : Doc) (h : st.entries = []) :
    (recordMany ops st).entries.length = min ops.length 200 ∧
    (recordMany ops st).entries =
      ((ops.map (builtEntry st.prefs.confirmNote)).reverse).take 200 := by
  have h0 : st.entries.length ≤ 200 := by rw [h]; simp
  have he := recordMany_entries ops st h0
  rw [h, List.append_nil] at he
  refine ⟨?_, he⟩
  rw [he, List.length_take, List.length_reverse, List.length_map, Nat.min_comm]

theorem recordMany_newest_first_witness :
    (recordMany [opW] defaultState).entries.length = min [opW].length 200 ∧
    (recordMany [opW] defaultState).entries =
      (([opW].map (builtEntry defaultState.prefs.confirmNote)).reverse).take 200 :=
  recordMany_newest_first [opW] defaultState rfl

/-- One unfolding step of the streak walk. -/
theorem streakLoop_succ (days : List Int) (date : Int) (f : Nat) :
    streakLoop days date (f + 1) =
      if date ∈ days then streakLoop days (date - 1) f + 1 else 0 := rfl

/-- The walk never counts more probes than its fuel. -/
theorem streakLoop_le_fuel (days : List Int) (date : Int) (fuel : Nat) :
    streakLoop days date fuel ≤ fuel := by
  induction fuel generalizing date with
  | zero => exact Nat.le_refl 0
  | succ f ih =>
    rw [streakLoop_succ]
    split
    · exact Nat.succ_le_succ (ih (date - 1))
    · exact Nat.zero_le _

/-- Every day probed within the returned count is a member of the day list. -/
theorem streakLoop_mem (days : List Int) (date : Int) (fuel : Nat) :
    ∀ j : Nat, j < streakLoop days date fuel → date - (j : Int) ∈ days := by
  induction fuel generalizing date with
  | zero =>
    intro j hj
    exact absurd hj (by simp [streakLoop])
  | succ f ih =>
    intro j hj
    rw [streakLoop_succ] at hj
    by_cases hd : date ∈ days
    · rw [if_pos hd] at hj
      match j with
      | 0 => simpa using hd
      | j + 1 =>
        have hmem := ih (date - 1) j (by omega)
        have hc : date - ((j + 1 : Nat) : Int) = date - 1 - (j : Int) := by push_cast; ring
        rw [hc]
        exact hmem
    · rw [if_neg hd] at hj
      exact absurd hj (by omega)

/-- A count strictly below the fuel is stable under any extra fuel. -/
theorem streakLoop_stable (days : List Int) (date : Int) (fuel m : Nat)
    (h : streakLoop days date fuel < fuel) :
    streakLoop days date (m + fuel) = streakLoop days date fuel := by
  induction fuel generalizing date with
  | zero => exact absurd h (by omega)
  | succ f ih =>
    by_cases hd : date ∈ days
    · rw [streakLoop_succ, if_pos hd] at h
      have hm := ih (date - 1) (by omega)
      show streakLoop days date ((m + f) + 1) = streakLoop days date (f + 1)
      rw [streakLoop_succ days date (m + f), streakLoop_succ days date f, if_pos hd,
        if_pos hd, hm]
    · show streakLoop days date ((m + f) + 1) = streakLoop days date (f + 1)
      rw [streakLoop_succ days date (m + f), streakLoop_succ days date f, if_neg hd,
        if_neg hd]

/-- The walk exits within days.length + 1 probes: the probed keys are pairwise
distinct, so a run that exhausts the fuel would place fuel distinct values in
the day list. -/
theorem streakLoop_lt_big_fuel (days : List Int) (date : Int) :
    streakLoop days date (days.length + 1) < days.length + 1 := by
  by_contra hcon
  have hk : streakLoop days date (days.length + 1) = days.length + 1 :=
    Nat.le_antisymm (streakLoop_le_fuel days date (days.length + 1)) (Nat.le_of_not_lt hcon)
  have hnodup : ((List.range (days.length + 1)).map (fun j : Nat => date - (j : Int))).Nodup := by
    refine List.Nodup.map ?_ (List.nodup_range _)
    intro a b hab
    simp only at hab
    omega
  have hsub : ((List.range (days.length + 1)).map (fun j : Nat => date - (j : Int))) ⊆ days := by
    intro x hx
    obtain ⟨j, hj, rfl⟩ := List.mem_map.mp hx
    exact streakLoop_mem days date (days.length + 1) j (by rw [hk]; exact List.mem_range.mp hj)
  have hle := (List.subperm_of_subset hnodup hsub).length_le
  simp only [List.length_map, List.length_range] at hle
  omega

/-- The fuel entries.length + 1 chosen in streak computes the same count as
any larger fuel: the model does not truncate the while loop of the source. -/
theorem streak_fuel_adequate (dayOf : String → Int) (today : Int) (st : Doc) (m : Nat) :
    streakLoop (dayTimes dayOf st.entries) today (m + (st.entries.length + 1)) =
      streakLoop (dayTimes dayOf st.entries) today (st.entries.length + 1) := by
  have hlen : (dayTimes dayOf st.entries).length = st.entries.length := by
    simp [dayTimes]
  have h := streakLoop_lt_big_fuel (dayTimes dayOf st.entries) today
  rw [hlen] at h
  exact streakLoop_stable _ _ _ m h

/-- Two distinct members force at least two elements. -/
theorem two_mem_length {α : Type} {a b : α} {l : List α} (ha : a ∈ l) (hb : b ∈ l)
    (hne : a ≠ b) : 2 ≤ l.length := by
  match l with
  | [] => exact absurd ha (List.not_mem_nil a)
  | [x] =>
    rw [List.mem_singleton] at ha hb
    exact absurd (ha.trans hb.symm) hne
  | x :: y :: rest =>
    simp only [List.length_cons]
    omega

/-- C7: the streak walks backward day by day starting at today and stops at
the first day with no entry: when the entry days are exactly today and
yesterday the streak is 2, and when today has no entry the streak is 0 no
matter how the earlier days look. -/
theorem streak_rules :
    (∀ (dayOf : String → Int) (today : Int) (st : Doc),
      (∀ t : Int, t ∈ dayTimes dayOf st.entries ↔ (t = today ∨ t = today - 1)) →
      streak dayOf today st = 2) ∧
    (∀ (dayOf : String → Int) (today : Int) (st : Doc),
      today ∉ dayTimes dayOf st.entries → streak dayOf today st = 0) := by
  constructor
  · intro dayOf today st hiff
    have h1 : today ∈ dayTimes dayOf st.entries := (hiff today).mpr (Or.inl rfl)
    have h2 : today - 1 ∈ dayTimes dayOf st.entries := (hiff (today - 1)).mpr (Or.inr rfl)
    have h3 : today - 2 ∉ dayTimes dayOf st.entries := by
      intro hm
      rcases (hiff (today - 2)).mp hm with h | h <;> omega
    have hlen2 : 2 ≤ st.entries.length := by
      have hg := two_mem_length h1 h2 (by omega)
      simpa [dayTimes] using hg
    obtain ⟨m, hm⟩ : ∃ m, st.entries.length = m + 1 + 1 :=
      ⟨st.entries.length - 2, by omega⟩
    have hbeq : (st.entries.length == 0) = false :=
      beq_eq_false_iff_ne.mpr (by omega)
    unfold streak
    rw [if_neg (by rw [hbeq]; exact Bool.false_ne_true)]
    rw [hm, streakLoop_succ, if_pos h1, streakLoop_succ, if_pos h2,
      show today - 1 - 1 = today - 2 from by ring, streakLoop_succ, if_neg h3]
  · intro dayOf today st h
    unfold streak
    split
    · rfl
    · rw [streakLoop_succ, if_neg h]

theorem streak_rules_witness :
    streak dayOfW 10 twoEntryDoc = 2 ∧ streak dayOfW2 10 twoEntryDoc = 0 := by
  constructor
  · refine streak_rules.1 dayOfW 10 twoEntryDoc ?_
    intro t
    have hdt : dayTimes dayOfW twoEntryDoc.entries = [10, 9] := by decide
    rw [hdt]
    simp only [List.mem_cons, List.not_mem_nil, or_false]
    omega
  · refine streak_rules.2 dayOfW2 10 twoEntryDoc ?_
    decide

/-- A canonical timestamp string is non-empty. -/
theorem isCanonicalTs_ne_empty {s : String} (h : isCanonicalTs s = true) : s ≠ "" := by
  intro he
  subst he
  exact absurd h (by decide)

/-- A falsy tsISO makes the importer store the current time. -/
theorem importTs_falsy (now : String) (v : JsValue) (ht : truthyB v = false) :
    importTs now v = Except.ok now := by
  simp [importTs, ht]

/-- A canonical timestamp string is stored verbatim. -/
theorem importTs_canonical (now s : String) (hcan : isCanonicalTs s = true) :
    importTs now (.str s) = Except.ok s := by
  have hne := isCanonicalTs_ne_empty hcan
  simp [importTs, truthyB, jsDateToIsoStr, hcan, hne]

/-- A known stored timestamp determines the rebuilt entry. -/
theorem rebuildEntry_of_importTs (u now : String) (fb e : JsValue) (ts : String)
    (h : importTs now (getField e "tsISO") = Except.ok ts) :
    rebuildEntry u now fb e = Except.ok (rebuiltEntry u fb e ts) := by
  unfold rebuildEntry
  rw [h]

/-- Entries whose timestamps are falsy or canonical all rebuild successfully,
falsy ones getting the current time and canonical ones kept verbatim. -/
theorem rebuildEntries_ok_of_tsOk (uid : Nat → String) (now : String) (fb : JsValue)
    (es : List JsValue)
    (hts : ∀ e ∈ es, tsOkB (getField e "tsISO") = true) :
    ∀ k : Nat, ∃ l : List Entry, rebuildEntries uid now fb k es = Except.ok l ∧
      List.Forall₂ (fun (raw : JsValue) (ent : Entry) =>
        (truthyB (getField raw "tsISO") = false → ent.tsISO = now) ∧
        (∀ s : String, getField raw "tsISO" = JsValue.str s → s ≠ "" → ent.tsISO = s))
        es l := by
  induction es with
  | nil => exact fun k => ⟨[], rfl, List.Forall₂.nil⟩
  | cons e es ih =>
    intro k
    have hte := hts e (List.mem_cons_self e es)
    obtain ⟨l, hl, hf⟩ := ih (fun x hx => hts x (List.mem_cons_of_mem e hx)) (k + 1)
    cases ht : truthyB (getField e "tsISO") with
    | false =>
      have hit : importTs now (getField e "tsISO") = Except.ok now := importTs_falsy now _ ht
      refine ⟨rebuiltEntry (uid k) fb e now :: l, ?_, ?_⟩
      · unfold rebuildEntries
        rw [rebuildEntry_of_importTs (uid k) now fb e now hit, hl]
      · refine List.Forall₂.cons ⟨?_, ?_⟩ hf
        · intro _
          rfl
        · intro s2 hgf2 hs2
          rw [hgf2] at ht
          simp only [truthyB, bne_eq_false_iff_eq] at ht
          exact absurd ht hs2
    | true =>
      have hcs : ∃ s : String, getField e "tsISO" = JsValue.str s ∧ isCanonicalTs s = true := by
        unfold tsOkB at hte
        rw [ht] at hte
        simp only [Bool.not_true, Bool.false_or] at hte
        cases hgf : getField e "tsISO" with
        | str s =>
          rw [hgf] at hte
          exact ⟨s, rfl, hte⟩
        | null => rw [hgf] at hte; cases hte
        | undefined => rw [hgf] at hte; cases hte
        | bool b => rw [hgf] at hte; cases hte
        | num n => rw [hgf] at hte; cases hte
        | arr xs => rw [hgf] at hte; cases hte
        | obj fs => rw [hgf] at hte; cases hte
      obtain ⟨s, hgf, hcan⟩ := hcs
      have hit : importTs now (getField e "tsISO") = Except.ok s := by
        rw [hgf]
        exact importTs_canonical now s hcan
      refine ⟨rebuiltEntry (uid k) fb e s :: l, ?_, ?_⟩
      · unfold rebuildEntries
        rw [rebuildEntry_of_importTs (uid k) now fb e s hit, hl]
      · refine List.Forall₂.cons ⟨?_, ?_⟩ hf
        · intro hfalse
          rw [hfalse] at ht
          cases ht
        · intro s2 hgf2 _
          rw [hgf] at hgf2
          injection hgf2 with hss

/-- C5 (amended): in a shape-valid import whose array elements are objects, an
entry whose tsISO is falsy (missing) is rebuilt with the current time
substituted, and the import as a whole succeeds as long as every present
timestamp is a canonical timestamp string, each such timestamp being kept
verbatim; a present but unparseable timestamp instead aborts the whole
run of the import (see the counterexample). -/
theorem import_ts_defaulting (uid : Nat → String) (now : String) (data : JsValue)
    (hL : isArrayB (getField data "lockables") = true)
    (hE : isArrayB (getField data "entries") = true)
    (_hobjL : ∀ l ∈ arrElems (getField data "lockables"), isObjB l = true)
    (_hobjE : ∀ e ∈ arrElems (getField data "entries"), isObjB e = true)
    (hts : ∀ e ∈ arrElems (getField data "entries"), tsOkB (getField e "tsISO") = true) :
    ∃ d : Doc, importData uid now data = Except.ok d ∧
      List.Forall₂ (fun (raw : JsValue) (ent : Entry) =>
        (truthyB (getField raw "tsISO") = false → ent.tsISO = now) ∧
        (∀ s : String, getField raw "tsISO" = JsValue.str s → s ≠ "" → ent.tsISO = s))
        (arrElems (getField data "entries")) d.entries := by
  obtain ⟨l, hl, hf⟩ := rebuildEntries_ok_of_tsOk uid now
    (getField (headOr (arrElems (getField data "lockables"))) "id")
    (arrElems (getField data "entries")) hts 0
  refine ⟨Doc.mk (rebuildLockables uid 0 (arrElems (getField data "lockables"))) l
    (rebuildPrefs data), ?_, hf⟩
  unfold importData
  rw [if_pos (by rw [hL, hE]; rfl), hl]

theorem import_ts_defaulting_witness :
    ∃ d : Doc, importData uid0 "2024-01-01T00:00:00.000Z" mixedTsImport = Except.ok d ∧
      List.Forall₂ (fun (raw : JsValue) (ent : Entry) =>
        (truthyB (getField raw "tsISO") = false → ent.tsISO = "2024-01-01T00:00:00.000Z") ∧
        (∀ s : String, getField raw "tsISO" = JsValue.str s → s ≠ "" → ent.tsISO = s))
        (arrElems (getField mixedTsImport "entries")) d.entries :=
  import_ts_defaulting uid0 "2024-01-01T00:00:00.000Z" mixedTsImport (by decide) (by decide)
    (by decide) (by decide) (by decide)

/-- C5 fails as stated: a present but unparseable timestamp does not default
to the current time; it makes the whole import fail with the RangeError
message, leaving the document untouched. -/
theorem import_ts_defaulting_cex :
    importData uid0 "2024-01-01T00:00:00.000Z" badTsImport =
      Except.error "Invalid time value" := by
  rfl

theorem jsToString_str (s : String) : jsToString (.str s) = s := rfl

theorem map_jsToString_str (xs : List String) : (xs.map JsValue.str).map jsToString = xs := by
  induction xs with
  | nil => rfl
  | cons x xs ih => simp only [List.map_cons, jsToString_str, ih]

theorem truthyB_str_of_ne {s : String} (h : s ≠ "") : truthyB (.str s) = true := by
  simp [truthyB, h]

theorem jsOr_truthy {a : JsValue} (b : JsValue) (h : truthyB a = true) : jsOr a b = a := by
  simp [jsOr, h]

theorem getField_lockableToJson_id (l : Lockable) :
    getField (lockableToJson l) "id" = .str l.id := rfl

theorem getField_lockableToJson_name (l : Lockable) :
    getField (lockableToJson l) "name" = .str l.name := rfl

theorem getField_lockableToJson_icon (l : Lockable) :
    getField (lockableToJson l) "icon" = .str l.icon := rfl

theorem getField_lockableToJson_color (l : Lockable) :
    getField (lockableToJson l) "color" = .str l.color := rfl

/-- A wellformed lockable survives the import rebuild verbatim. -/
theorem rebuildLockable_roundtrip (u : String) (l : Lockable) (h : wfLockable l = true) :
    rebuildLockable u (lockableToJson l) = l := by
  simp only [wfLockable, Bool.and_eq_true, bne_iff_ne, ne_eq] at h
  obtain ⟨⟨⟨h1, h2⟩, h3⟩, h4⟩ := h
  unfold rebuildLockable
  rw [getField_lockableToJson_id, getField_lockableToJson_name, getField_lockableToJson_icon,
    getField_lockableToJson_color, jsOr_truthy _ (truthyB_str_of_ne h1),
    jsOr_truthy _ (truthyB_str_of_ne h2), jsOr_truthy _ (truthyB_str_of_ne h3),
    jsOr_truthy _ (truthyB_str_of_ne h4), jsToString_str, jsToString_str, jsToString_str,
    jsToString_str]

theorem rebuildLockables_roundtrip (uid : Nat → String) (ls : List Lockable)
    (h : ls.all wfLockable = true) :
    ∀ k : Nat, rebuildLockables uid k (ls.map lockableToJson) = ls := by
  induction ls with
  | nil => exact fun k => rfl
  | cons l ls ih =>
    rw [List.all_cons, Bool.and_eq_true] at h
    intro k
    simp only [List.map_cons, rebuildLockables]
    rw [rebuildLockable_roundtrip (uid k) l h.1, ih h.2 (k + 1)]

/-- A wellformed entry survives the import rebuild verbatim. -/
theorem rebuildEntry_roundtrip (u now : String) (fb : JsValue) (e : Entry)
    (h : wfEntry e = true) :
    rebuildEntry u now fb (entryToJson e) = Except.ok e := by
  obtain ⟨i, lid, ts, nt⟩ := e
  cases nt with
  | none =>
    have h' : i ≠ "" ∧ lid ≠ "" ∧ isCanonicalTs ts = true := by
      simpa [wfEntry, and_assoc] using h
    obtain ⟨h1, h2, h3⟩ := h'
    have hit : importTs now (getField (entryToJson (Entry.mk i lid ts none)) "tsISO") =
        Except.ok ts := by
      rw [show getField (entryToJson (Entry.mk i lid ts none)) "tsISO" = .str ts from rfl]
      exact importTs_canonical now ts h3
    rw [rebuildEntry_of_importTs u now fb _ ts hit]
    unfold rebuiltEntry
    rw [show getField (entryToJson (Entry.mk i lid ts none)) "id" = .str i from rfl,
      show getField (entryToJson (Entry.mk i lid ts none)) "lockableId" = .str lid from rfl,
      show getField (entryToJson (Entry.mk i lid ts none)) "note" = .undefined from rfl,
      jsOr_truthy _ (truthyB_str_of_ne h1), jsOr_truthy _ (truthyB_str_of_ne h2),
      jsToString_str, jsToString_str]
    rfl
  | some n =>
    have h' : i ≠ "" ∧ lid ≠ "" ∧ isCanonicalTs ts = true ∧ n ≠ "" := by
      simpa [wfEntry, and_assoc] using h
    obtain ⟨h1, h2, h3, h4⟩ := h'
    have hit : importTs now (getField (entryToJson (Entry.mk i lid ts (some n))) "tsISO") =
        Except.ok ts := by
      rw [show getField (entryToJson (Entry.mk i lid ts (some n))) "tsISO" = .str ts from rfl]
      exact importTs_canonical now ts h3
    rw [rebuildEntry_of_importTs u now fb _ ts hit]
    unfold rebuiltEntry
    rw [show getField (entryToJson (Entry.mk i lid ts (some n))) "id" = .str i from rfl,
      show getField (entryToJson (Entry.mk i lid ts (some n))) "lockableId" = .str lid from rfl,
      show getField (entryToJson (Entry.mk i lid ts (some n))) "note" = .str n from rfl,
      jsOr_truthy _ (truthyB_str_of_ne h1), jsOr_truthy _ (truthyB_str_of_ne h2),
      jsToString_str, jsToString_str, truthyB_str_of_ne h4]
    simp only [if_true, jsToString_str]

theorem rebuildEntries_roundtrip (uid : Nat → String) (now : String) (fb : JsValue)
    (es : List Entry) (h : es.all wfEntry = true) :
    ∀ k : Nat, rebuildEntries uid now fb k (es.map entryToJson) = Except.ok es := by
  induction es with
  | nil => exact fun k => rfl
  | cons e es ih =>
    rw [List.all_cons, Bool.and_eq_true] at h
    intro k
    simp only [List.map_cons, rebuildEntries]
    rw [rebuildEntry_roundtrip (uid k) now fb e h.1, ih h.2 (k + 1)]

/-- Wellformed preferences survive the import rebuild verbatim. -/
theorem rebuildPrefs_roundtrip (data : JsValue) (p : Prefs)
    (hp : getField data "prefs" = prefsToJson p) (h : wfPrefs p = true) :
    rebuildPrefs data = p := by
  unfold rebuildPrefs
  rw [hp]
  show Prefs.mk
      (if (p.theme == "system" || p.theme == "light" || p.theme == "dark") = true
        then p.theme else "system")
      p.confirmNote ((p.quickNoteSuggestions.map JsValue.str).map jsToString) = p
  rw [if_pos (show (p.theme == "system" || p.theme == "light" || p.theme == "dark") = true
    from h), map_jsToString_str]

/-- C6: exporting a wellformed document and importing the produced JSON text
reproduces the document exactly. -/
theorem export_import_roundtrip (uid : Nat → String) (now : String) (d : Doc)
    (h : wfDoc d = true) :
    importData uid now (exportJson d) = Except.ok d := by
  simp only [wfDoc, Bool.and_eq_true] at h
  obtain ⟨⟨hl, he⟩, hp⟩ := h
  have hL : getField (exportJson d) "lockables" = .arr (d.lockables.map lockableToJson) := rfl
  have hE : getField (exportJson d) "entries" = .arr (d.entries.map entryToJson) := rfl
  have hP : getField (exportJson d) "prefs" = prefsToJson d.prefs := rfl
  unfold importData
  rw [if_pos (by rw [hL, hE]; rfl), hL, hE]
  simp only [arrElems]
  rw [rebuildEntries_roundtrip uid now _ d.entries he 0,
    rebuildLockables_roundtrip uid d.lockables hl 0,
    rebuildPrefs_roundtrip (exportJson d) d.prefs hP hp]

theorem export_import_roundtrip_witness :
    importData uid0 "2024-01-01T00:00:00.000Z" (exportJson wfWitnessDoc) =
      Except.ok wfWitnessDoc :=
  export_import_roundtrip uid0 "2024-01-01T00:00:00.000Z" wfWitnessDoc (by decide)

/-- hexChar inverts hexVal? on values below 16. -/
theorem hexVal_hexChar : ∀ d : Nat, d < 16 → hexVal? (hexChar d) = some d := by decide

/-- parseIntHex on a two-digit slice. -/
theorem parseIntHex_pair (a b : Nat) (ha : a < 16) (hb : b < 16) :
    parseIntHex [hexChar a, hexChar b] = some (a * 16 + b) := by
  simp only [parseIntHex]
  rw [hexVal_hexChar a ha]
  show some (hexRun a [hexChar b]) = some (a * 16 + b)
  simp only [hexRun]
  rw [hexVal_hexChar b hb]

/-- readableTextColor evaluated on a seven-character hash-prefixed string with
successfully parsed channel slices. -/
theorem readableTextColor_of_data (hex : String) (c1 c2 c3 c4 c5 c6 : Char)
    (hd : hex.data = '#' :: c1 :: c2 :: c3 :: c4 :: c5 :: c6 :: [])
    (r g b : Nat)
    (h1 : parseIntHex [c1, c2] = some r)
    (h2 : parseIntHex [c3, c4] = some g)
    (h3 : parseIntHex [c5, c6] = some b) :
    readableTextColor hex =
      if 140 * 1000 ≤ r * 299 + g * 587 + b * 114 then "#18181b" else "#ffffff" := by
  unfold readableTextColor
  rw [hd]
  show (match parseIntHex [c1, c2], parseIntHex [c3, c4], parseIntHex [c5, c6] with
    | some r, some g, some b =>
      if 140 * 1000 ≤ r * 299 + g * 587 + b * 114 then "#18181b" else "#ffffff"
    | _, _, _ => "#ffffff") =
      if 140 * 1000 ≤ r * 299 + g * 587 + b * 114 then "#18181b" else "#ffffff"
  rw [h1, h2, h3]

/-- C9: readableTextColor computes the YIQ-weighted luminance
(r*299 + g*587 + b*114)/1000 of the hex background and yields white text
exactly when it falls below 140 (as an exact comparison this is the integer
test against 140 * 1000); in particular black yields white text and white
yields dark text. -/
theorem readableTextColor_spec :
    (∀ r g b : Nat, r ≤ 255 → g ≤ 255 → b ≤ 255 →
      readableTextColor ("#" ++ toHex2 r ++ toHex2 g ++ toHex2 b) =
        (if r * 299 + g * 587 + b * 114 < 140 * 1000 then "#ffffff" else "#18181b")) ∧
    readableTextColor "#000000" = "#ffffff" ∧
    readableTextColor "#ffffff" = "#18181b" := by
  refine ⟨?_, by decide, by decide⟩
  intro r g b hr hg hb
  have hd : ("#" ++ toHex2 r ++ toHex2 g ++ toHex2 b).data =
      '#' :: hexChar (r / 16) :: hexChar (r % 16) :: hexChar (g / 16) :: hexChar (g % 16) ::
        hexChar (b / 16) :: hexChar (b % 16) :: [] := by
    simp only [String.data_append, toHex2]
    rfl
  have p1 := parseIntHex_pair (r / 16) (r % 16) (by omega) (by omega)
  have p2 := parseIntHex_pair (g / 16) (g % 16) (by omega) (by omega)
  have p3 := parseIntHex_pair (b / 16) (b % 16) (by omega) (by omega)
  rw [show r / 16 * 16 + r % 16 = r from by omega] at p1
  rw [show g / 16 * 16 + g % 16 = g from by omega] at p2
  rw [show b / 16 * 16 + b % 16 = b from by omega] at p3
  rw [readableTextColor_of_data _ _ _ _ _ _ _ hd r g b p1 p2 p3]
  split_ifs with hx hy
  · omega
  · rfl
  · rfl
  · omega

theorem readableTextColor_spec_witness :
    readableTextColor ("#" ++ toHex2 250 ++ toHex2 250 ++ toHex2 250) =
      (if 250 * 299 + 250 * 587 + 250 * 114 < 140 * 1000 then "#ffffff" else "#18181b") :=
  readableTextColor_spec.1 250 250 250 (by decide) (by decide) (by decide)
end LockLogger
